import Mathlib

/-
Shallow embedding of `src/data_preparation/embeddings/video_embeddings/video_dataset.py`.

Modelling conventions:
  * Python strings are lists of characters (`PyStr`); Python string
    comparison is lexicographic on code points, which is the `List Char`
    lexicographic order.
  * Python floats are modelled by the exact rational value they denote,
    as an explicit numerator/denominator pair (`PyFloat`); the source only
    multiplies them and truncates with `int(-)`.
  * The external collaborators (cv2, the filesystem, the DataLoader) are
    explicit parameters: a `CvEnv` maps a path to the `Video` object that
    `cv2.VideoCapture` would produce and carries the (possibly failing)
    behaviour of `cv2.cvtColor` and of the content part of `cv2.resize`.
  * Uncaught Python exceptions are explicit `raised`/`error` results; the
    two custom exceptions `NoVideo`/`NoFrames` are caught inside
    `__getitem__` exactly as in the source, and the `print` calls have no
    modelled effect.
-/

/-- A Python string: its list of characters. -/
abbrev PyStr := List Char

/-- Model of `os.path.basename p`: everything after the last slash. -/
def basename (p : PyStr) : PyStr :=
  p.foldl (fun acc c => if c = '/' then [] else acc ++ [c]) []

/-- Model of `os.path.basename(p).split(sep)[0]` with separator dot: the
basename cut at the first dot (the extension-stripped stem). -/
def stem (p : PyStr) : PyStr :=
  (basename p).takeWhile (fun c => c ≠ '.')

/-- Model of `metadata_keys.sort(key = basename)`: Python list sort is a
stable sort by the key function, here the basename including extension;
`List.insertionSort` is likewise stable. -/
def sortedMetaKeys (keys : List PyStr) : List PyStr :=
  List.insertionSort (fun a b => basename a ≤ basename b) keys

/-- Model of building `done`: stems of the completed-output directory
entries, then `done.sort()`. -/
def doneSorted (entries : List PyStr) : List PyStr :=
  List.insertionSort (fun a b => a ≤ b) (entries.map stem)

/-- Model of the pruning loop of `VideoDataset.__init__`: for each key `p`
in sorted order, test `p_name in done[len(delete):]` and if so append `p`
to `delete`. -/
def pruneScan : List PyStr → List PyStr → List PyStr → List PyStr
  | [], _, del => del
  | p :: ps, done, del =>
    if stem p ∈ done.drop del.length then pruneScan ps done (del ++ [p])
    else pruneScan ps done del

/-- The `delete` list computed by `VideoDataset.__init__` from the raw
metadata keys and the completed-output directory listing. -/
def pruneDelete (keys : List PyStr) (entries : List PyStr) : List PyStr :=
  pruneScan (sortedMetaKeys keys) (doneSorted entries) []

/-- A metadata value: the source only ever reads the `label` field. -/
structure MetaRecord where
  label : PyStr
deriving DecidableEq

/-- Exact-value model of a Python float as the rational `num / den`. -/
structure PyFloat where
  num : Int
  den : Nat
deriving DecidableEq

/-- Multiplication of exact float values. -/
def PyFloat.mul (a b : PyFloat) : PyFloat :=
  ⟨a.num * b.num, a.den * b.den⟩

/-- The rational value denoted by a `PyFloat`. -/
def PyFloat.toRat (a : PyFloat) : Rat :=
  (a.num : Rat) / (a.den : Rat)

/-- Python `int(x)` on a float value: truncation toward zero. -/
def pyInt (x : PyFloat) : Int :=
  if 0 ≤ x.num then (x.num.natAbs / x.den : Nat) else -((x.num.natAbs / x.den : Nat) : Int)

/-- Opaque handle for a raw decoded frame as returned by `v_cap.retrieve()`. -/
abbrev RawFrame := Nat

/-- A processed frame after `cv2.cvtColor` and `cv2.resize(frame, (v_width,
v_height))`: `cv2.resize` returns an image of exactly the requested size. -/
structure ProcFrame where
  height : Int
  width : Int
  content : RawFrame
deriving DecidableEq

/-- The observable behaviour of a `cv2.VideoCapture` object: reported frame
count (`CAP_PROP_FRAME_COUNT` already truncated by `int(-)`), reported
height and width, and the decode result of `retrieve()` after the frame at
position `i` has been grabbed (`none` models `success = False`). -/
structure Video where
  frame_count : Nat
  height : PyFloat
  width : PyFloat
  retrieve : Nat → Option RawFrame

/-- The external cv2/filesystem environment: `capture` is
`cv2.VideoCapture`, `cvtColor` is `cv2.cvtColor(-, COLOR_BGR2RGB)` and
`resizeContent` the content transformation of `cv2.resize`; both may raise
(an `Except.error`), which `__getitem__` does not catch. -/
structure CvEnv where
  capture : PyStr → Video
  cvtColor : RawFrame → Except String RawFrame
  resizeContent : RawFrame → Except String RawFrame

/-- The two custom exceptions from `custom_exceptions`, as appended to
`self.error_paths` (the exception object carries the offending path). -/
inductive CustomException where
  | NoVideo (path : PyStr)
  | NoFrames (path : PyStr)
deriving DecidableEq

/-- Outcome of one `__getitem__` call: a returned sample triple, a returned
`None` (after one of the two caught custom exceptions), or an uncaught
exception propagating to the caller. -/
inductive GetItemResult where
  | sample (video_path : PyStr) (frames : List ProcFrame) (label : PyStr)
  | noneResult
  | raised (msg : String)
deriving DecidableEq

/-- The state of a `VideoDataset` object.  `transform` is stored but never
applied by the source, so it is kept as an opaque handle. -/
structure VideoDataset where
  metadata : List (PyStr × MetaRecord)
  path_to_all_videos : List PyStr
  window : Nat
  resize : PyFloat
  transform : Option Nat
  error_paths : List CustomException
  max_v_len : Nat
deriving DecidableEq

/-- Model of `VideoDataset.__init__`: prune the metadata mapping of every
key the merge-scan marks for deletion (dict `pop` keeps the insertion
order of the remaining keys), then record the remaining keys and the
configuration. -/
def VideoDataset.init (md : List (PyStr × MetaRecord)) (w : Nat) (rz : PyFloat)
    (tf : Option Nat) (check_entries : List PyStr) : VideoDataset :=
  let del := pruneDelete (md.map Prod.fst) check_entries
  let metadata := md.filter (fun kv => decide (kv.1 ∉ del))
  { metadata := metadata
    path_to_all_videos := metadata.map Prod.fst
    window := w
    resize := rz
    transform := tf
    error_paths := []
    max_v_len := 1440 }

/-- Model of `VideoDataset.__len__`. -/
def VideoDataset.len (ds : VideoDataset) : Nat :=
  ds.path_to_all_videos.length

/-- The frame extraction loop of `__getitem__` over the positions
`range(v_len)[:max_v_len]`.  Each position grabs one frame; when
`i % window == 0` the frame is retrieved (a failed retrieve is skipped by
`continue`), colour-converted and resized.  `i % window` with `window = 0`
raises `ZeroDivisionError` in Python, which is not caught. -/
def sampleLoop (env : CvEnv) (v : Video) (w : Nat) (vw vh : Int) :
    List Nat → List ProcFrame → Except String (List ProcFrame)
  | [], frames => .ok frames
  | i :: rest, frames =>
    if w = 0 then .error "ZeroDivisionError"
    else if i % w = 0 then
      match v.retrieve i with
      | none => sampleLoop env v w vw vh rest frames
      | some raw =>
        match env.cvtColor raw with
        | .error e => .error e
        | .ok c1 =>
          match env.resizeContent c1 with
          | .error e => .error e
          | .ok c2 => sampleLoop env v w vw vh rest (frames ++ [⟨vh, vw, c2⟩])
    else sampleLoop env v w vw vh rest frames

/-- Body of `VideoDataset.__getitem__` once the indexed path has been
found: open the capture, check the frame count, run the extraction loop,
and classify the outcome.  The two custom exceptions are caught here
(`print`, append to `error_paths`, return `None`); a failed metadata
lookup (`KeyError`) and any decode error are not caught and propagate. -/
def VideoDataset.getitemFound (env : CvEnv) (ds : VideoDataset) (video_path : PyStr) :
    GetItemResult × VideoDataset :=
  let v_cap := env.capture video_path
  let v_len := v_cap.frame_count
  if v_len = 0 then
    (.noneResult, { ds with error_paths := ds.error_paths ++ [.NoVideo video_path] })
  else
    let v_height := pyInt (v_cap.height.mul ds.resize)
    let v_width := pyInt (v_cap.width.mul ds.resize)
    match sampleLoop env v_cap ds.window v_width v_height
        (List.range (min v_len ds.max_v_len)) [] with
    | .error e => (.raised e, ds)
    | .ok frames =>
      match frames with
      | [] => (.noneResult, { ds with error_paths := ds.error_paths ++ [.NoFrames video_path] })
      | f :: fs =>
        match ds.metadata.lookup video_path with
        | none => (.raised "KeyError", ds)
        | some r => (.sample video_path (f :: fs) r.label, ds)

/-- Model of `VideoDataset.__getitem__`.  Returns the Python return value
together with the updated object state (only `error_paths` can change).
An out-of-range index raises an uncaught `IndexError`. -/
def VideoDataset.getitem (env : CvEnv) (ds : VideoDataset) (idx : Nat) :
    GetItemResult × VideoDataset :=
  match ds.path_to_all_videos[idx]? with
  | none => (.raised "IndexError", ds)
  | some video_path => VideoDataset.getitemFound env ds video_path

/-- Driving a sequence of fetches against the dataset state, counting how
many of the calls returned the absence signal `None`. -/
def runFetches (env : CvEnv) : VideoDataset → List Nat → VideoDataset × Nat
  | ds, [] => (ds, 0)
  | ds, i :: rest =>
    let step := VideoDataset.getitem env ds i
    let tail := runFetches env step.2 rest
    (tail.1, tail.2 + (if step.1 = .noneResult then 1 else 0))

/-- Closed form for the frames kept by the extraction loop when neither
colour conversion (`cc`) nor resizing (`rs`) ever fails: one frame per
position `i < m` with `i % w = 0` whose retrieve succeeded, in order. -/
def keptFrames (v : Video) (w : Nat) (vw vh : Int)
    (cc rs : RawFrame → RawFrame) (m : Nat) : List ProcFrame :=
  ((List.range m).filter (fun i => i % w == 0)).filterMap
    (fun i => (v.retrieve i).map (fun raw => ProcFrame.mk vh vw (rs (cc raw))))

/-- Number of sampled positions (`i % w = 0`) below `m` whose decode
(`retrieve`) fails. -/
def failedCount (v : Video) (w m : Nat) : Nat :=
  ((List.range m).filter (fun i => i % w == 0 && (v.retrieve i).isNone)).length

/-- The batch object built by `collate_fn`; three parallel columns. -/
structure CustomBatch (α β γ : Type) where
  video_path : List α
  frame : List β
  label : List γ
deriving DecidableEq

/-- Model of `CustomBatch.__init__`: filter out the `None` items and
transpose the surviving triples (`zip(*filter(...))`).  When every item is
`None` the transposed list is empty and `transposed_data[0]` raises an
uncaught `IndexError`, modelled by the error result. -/
def CustomBatch.init {α β γ : Type} (data : List (Option (α × β × γ))) :
    Except String (CustomBatch α β γ) :=
  let transposed := data.filterMap id
  if transposed.isEmpty then .error "IndexError"
  else .ok { video_path := transposed.map (fun x => x.1)
             frame := transposed.map (fun x => x.2.1)
             label := transposed.map (fun x => x.2.2) }

/-- A concrete environment for instantiations: every path yields the given
video; colour conversion and resizing keep the raw content unchanged. -/
def idEnv (v : Video) : CvEnv :=
  ⟨fun _ => v, fun r => .ok r, fun r => .ok r⟩

/-- Concrete five-frame fully decodable video of reported size 4 by 6. -/
def video5 : Video :=
  ⟨5, ⟨4, 1⟩, ⟨6, 1⟩, fun i => some i⟩

/-- Concrete video reporting zero frames. -/
def video0 : Video :=
  ⟨0, ⟨4, 1⟩, ⟨6, 1⟩, fun _ => none⟩

/-- Concrete two-frame video whose every retrieve fails. -/
def video2none : Video :=
  ⟨2, ⟨4, 1⟩, ⟨6, 1⟩, fun _ => none⟩

/-- Concrete single-frame decodable video of reported size 3 by 3. -/
def video3 : Video :=
  ⟨1, ⟨3, 1⟩, ⟨3, 1⟩, fun _ => some 0⟩

/-- One-video dataset over path `v.mp4` with given window and resize. -/
def dsOne (w : Nat) (rz : PyFloat) : VideoDataset :=
  ⟨[("v.mp4".toList, ⟨"REAL".toList⟩)], ["v.mp4".toList], w, rz, none, [], 1440⟩

theorem getitem_eq_found (env : CvEnv) (ds : VideoDataset) (idx : Nat) (p : PyStr)
    (hpath : ds.path_to_all_videos[idx]? = some p) :
    VideoDataset.getitem env ds idx = VideoDataset.getitemFound env ds p := by
  unfold VideoDataset.getitem
  rw [hpath]

theorem getitemFound_zero (env : CvEnv) (ds : VideoDataset) (p : PyStr)
    (hzero : (env.capture p).frame_count = 0) :
    VideoDataset.getitemFound env ds p =
      (.noneResult, { ds with error_paths := ds.error_paths ++ [.NoVideo p] }) := by
  simp only [VideoDataset.getitemFound]
  rw [if_pos hzero]

theorem getitemFound_ok_nil (env : CvEnv) (ds : VideoDataset) (p : PyStr)
    (hpos : ¬ (env.capture p).frame_count = 0)
    (hloop : sampleLoop env (env.capture p) ds.window
        (pyInt ((env.capture p).width.mul ds.resize))
        (pyInt ((env.capture p).height.mul ds.resize))
        (List.range (min (env.capture p).frame_count ds.max_v_len)) [] = .ok []) :
    VideoDataset.getitemFound env ds p =
      (.noneResult, { ds with error_paths := ds.error_paths ++ [.NoFrames p] }) := by
  simp only [VideoDataset.getitemFound]
  rw [if_neg hpos, hloop]

theorem getitemFound_err (env : CvEnv) (ds : VideoDataset) (p : PyStr) (e : String)
    (hpos : ¬ (env.capture p).frame_count = 0)
    (hloop : sampleLoop env (env.capture p) ds.window
        (pyInt ((env.capture p).width.mul ds.resize))
        (pyInt ((env.capture p).height.mul ds.resize))
        (List.range (min (env.capture p).frame_count ds.max_v_len)) [] = .error e) :
    VideoDataset.getitemFound env ds p = (.raised e, ds) := by
  simp only [VideoDataset.getitemFound]
  rw [if_neg hpos, hloop]

theorem getitemFound_sample (env : CvEnv) (ds : VideoDataset) (p : PyStr)
    (f : ProcFrame) (fs : List ProcFrame) (r : MetaRecord)
    (hpos : ¬ (env.capture p).frame_count = 0)
    (hloop : sampleLoop env (env.capture p) ds.window
        (pyInt ((env.capture p).width.mul ds.resize))
        (pyInt ((env.capture p).height.mul ds.resize))
        (List.range (min (env.capture p).frame_count ds.max_v_len)) [] = .ok (f :: fs))
    (hlook : ds.metadata.lookup p = some r) :
    VideoDataset.getitemFound env ds p = (.sample p (f :: fs) r.label, ds) := by
  simp only [VideoDataset.getitemFound]
  rw [if_neg hpos, hloop, hlook]

theorem sampleLoop_all_fail (env : CvEnv) (v : Video) (w : Nat) (vw vh : Int)
    (hw : w ≠ 0) :
    ∀ (l : List Nat) (acc : List ProcFrame),
      (∀ i ∈ l, i % w = 0 → v.retrieve i = none) →
      sampleLoop env v w vw vh l acc = .ok acc
  | [], _, _ => rfl
  | i :: rest, acc, h => by
    have hrest : ∀ j ∈ rest, j % w = 0 → v.retrieve j = none :=
      fun j hj => h j (List.mem_cons_of_mem _ hj)
    by_cases hi : i % w = 0
    · simp only [sampleLoop, if_neg hw, if_pos hi, h i (List.mem_cons_self i rest) hi]
      exact sampleLoop_all_fail env v w vw vh hw rest acc hrest
    · simp only [sampleLoop, if_neg hw, if_neg hi]
      exact sampleLoop_all_fail env v w vw vh hw rest acc hrest

theorem getitemFound_keyerr (env : CvEnv) (ds : VideoDataset) (p : PyStr)
    (f : ProcFrame) (fs : List ProcFrame)
    (hpos : ¬ (env.capture p).frame_count = 0)
    (hloop : sampleLoop env (env.capture p) ds.window
        (pyInt ((env.capture p).width.mul ds.resize))
        (pyInt ((env.capture p).height.mul ds.resize))
        (List.range (min (env.capture p).frame_count ds.max_v_len)) [] = .ok (f :: fs))
    (hlook : ds.metadata.lookup p = none) :
    VideoDataset.getitemFound env ds p = (.raised "KeyError", ds) := by
  simp only [VideoDataset.getitemFound]
  rw [if_neg hpos, hloop, hlook]

theorem getitemFound_cases (env : CvEnv) (ds : VideoDataset) (p : PyStr) :
    (∃ x, VideoDataset.getitemFound env ds p
        = (.noneResult, { ds with error_paths := ds.error_paths ++ [x] }))
    ∨ ((VideoDataset.getitemFound env ds p).2 = ds
        ∧ (VideoDataset.getitemFound env ds p).1 ≠ .noneResult) := by
  by_cases hz : (env.capture p).frame_count = 0
  · exact Or.inl ⟨_, getitemFound_zero env ds p hz⟩
  · rcases hE : sampleLoop env (env.capture p) ds.window
        (pyInt ((env.capture p).width.mul ds.resize))
        (pyInt ((env.capture p).height.mul ds.resize))
        (List.range (min (env.capture p).frame_count ds.max_v_len)) [] with e | F
    · rw [getitemFound_err env ds p e hz hE]
      exact Or.inr ⟨rfl, by simp⟩
    · rcases F with _ | ⟨f, fs⟩
      · exact Or.inl ⟨_, getitemFound_ok_nil env ds p hz hE⟩
      · rcases hlook : ds.metadata.lookup p with _ | r
        · rw [getitemFound_keyerr env ds p f fs hz hE hlook]
          exact Or.inr ⟨rfl, by simp⟩
        · rw [getitemFound_sample env ds p f fs r hz hE hlook]
          exact Or.inr ⟨rfl, by simp⟩

theorem getitem_cases (env : CvEnv) (ds : VideoDataset) (idx : Nat) :
    (∃ x, VideoDataset.getitem env ds idx
        = (.noneResult, { ds with error_paths := ds.error_paths ++ [x] }))
    ∨ ((VideoDataset.getitem env ds idx).2 = ds
        ∧ (VideoDataset.getitem env ds idx).1 ≠ .noneResult) := by
  unfold VideoDataset.getitem
  rcases hp : ds.path_to_all_videos[idx]? with _ | p
  · exact Or.inr ⟨rfl, by simp⟩
  · exact getitemFound_cases env ds p

theorem getitem_state (env : CvEnv) (ds : VideoDataset) (idx : Nat) :
    ∃ eps, (VideoDataset.getitem env ds idx).2 = { ds with error_paths := eps } := by
  rcases getitem_cases env ds idx with ⟨x, h⟩ | ⟨h, _⟩
  · exact ⟨ds.error_paths ++ [x], by rw [h]⟩
  · exact ⟨ds.error_paths, by rw [h]⟩

theorem getitem_error_delta (env : CvEnv) (ds : VideoDataset) (idx : Nat) :
    (VideoDataset.getitem env ds idx).2.error_paths.length
      = ds.error_paths.length
        + (if (VideoDataset.getitem env ds idx).1 = .noneResult then 1 else 0) := by
  rcases getitem_cases env ds idx with ⟨x, h⟩ | ⟨h1, h2⟩
  · rw [h]
    simp
  · rw [h1, if_neg h2]
    simp

theorem runFetches_len (env : CvEnv) :
    ∀ (idxs : List Nat) (ds : VideoDataset),
      (runFetches env ds idxs).1.error_paths.length
        = ds.error_paths.length + (runFetches env ds idxs).2
  | [], ds => by simp [runFetches]
  | i :: rest, ds => by
    simp only [runFetches]
    have h1 := runFetches_len env rest (VideoDataset.getitem env ds i).2
    have h2 := getitem_error_delta env ds i
    by_cases hc : (VideoDataset.getitem env ds i).1 = .noneResult <;>
      simp [hc] at h2 ⊢ <;> omega

/-- C2: the claim states an all-absent batch yields three empty columns
without an error; the code instead raises an uncaught `IndexError` when
indexing the empty transposed list.  This theorem evaluates the batch
assembler at the failing input (a batch of two absence signals). -/
theorem C2_all_absent_raises :
    CustomBatch.init ([none, none] : List (Option (PyStr × List ProcFrame × PyStr)))
      = .error "IndexError" := rfl

/-- C6: for a video reporting zero total frames, one fetch returns the
absence signal and appends exactly one `NoVideo` entry carrying that
video's path to the error list. -/
theorem C6_zero_frames_recorded_once (env : CvEnv) (ds : VideoDataset) (idx : Nat)
    (p : PyStr)
    (hpath : ds.path_to_all_videos[idx]? = some p)
    (hzero : (env.capture p).frame_count = 0) :
    VideoDataset.getitem env ds idx =
      (.noneResult,
       { ds with error_paths := ds.error_paths ++ [CustomException.NoVideo p] }) := by
  rw [getitem_eq_found env ds idx p hpath]
  exact getitemFound_zero env ds p hzero

theorem C6_zero_frames_recorded_once_witness :
    VideoDataset.getitem (idEnv video0) (dsOne 1 ⟨1, 2⟩) 0 =
      (.noneResult,
       { dsOne 1 ⟨1, 2⟩ with
          error_paths := (dsOne 1 ⟨1, 2⟩).error_paths
            ++ [CustomException.NoVideo "v.mp4".toList] }) :=
  C6_zero_frames_recorded_once (idEnv video0) (dsOne 1 ⟨1, 2⟩) 0 "v.mp4".toList
    (by decide) (by decide)

/-- C7: for a video with positive frame count whose every decode attempt
at a sampled position fails, the fetch returns the absence signal
classified as `NoFrames` (not `NoVideo`), recording the path. -/
theorem C7_all_decode_failures_noframes (env : CvEnv) (ds : VideoDataset) (idx : Nat)
    (p : PyStr)
    (hpath : ds.path_to_all_videos[idx]? = some p)
    (hw : ds.window ≠ 0)
    (hpos : 0 < (env.capture p).frame_count)
    (hfail : ∀ i, i < min (env.capture p).frame_count ds.max_v_len →
      i % ds.window = 0 → (env.capture p).retrieve i = none) :
    VideoDataset.getitem env ds idx =
      (.noneResult,
       { ds with error_paths := ds.error_paths ++ [CustomException.NoFrames p] }) := by
  rw [getitem_eq_found env ds idx p hpath]
  refine getitemFound_ok_nil env ds p (by omega) ?_
  exact sampleLoop_all_fail env (env.capture p) ds.window _ _ hw _ []
    (fun i hi => hfail i (List.mem_range.mp hi))

theorem C7_all_decode_failures_noframes_witness :
    VideoDataset.getitem (idEnv video2none) (dsOne 1 ⟨1, 2⟩) 0 =
      (.noneResult,
       { dsOne 1 ⟨1, 2⟩ with
          error_paths := (dsOne 1 ⟨1, 2⟩).error_paths
            ++ [CustomException.NoFrames "v.mp4".toList] }) :=
  C7_all_decode_failures_noframes (idEnv video2none) (dsOne 1 ⟨1, 2⟩) 0 "v.mp4".toList
    (by decide) (by decide) (by decide) (by decide)

/-- C9: a fetch never modifies any construction-time state except the
error list (metadata, path list, window, resize, transform and the
max-frame budget are unchanged, hence the length is constant), and the
length of a freshly constructed dataset equals the number of metadata
keys remaining after the one-time pruning. -/
theorem C9_fetch_preserves_state (env : CvEnv) (ds : VideoDataset) (idx : Nat) :
    ((VideoDataset.getitem env ds idx).2.metadata = ds.metadata
      ∧ (VideoDataset.getitem env ds idx).2.path_to_all_videos = ds.path_to_all_videos
      ∧ (VideoDataset.getitem env ds idx).2.window = ds.window
      ∧ (VideoDataset.getitem env ds idx).2.resize = ds.resize
      ∧ (VideoDataset.getitem env ds idx).2.transform = ds.transform
      ∧ (VideoDataset.getitem env ds idx).2.max_v_len = ds.max_v_len
      ∧ (VideoDataset.getitem env ds idx).2.len = ds.len)
    ∧ ∀ (md : List (PyStr × MetaRecord)) (w : Nat) (rz : PyFloat) (tf : Option Nat)
        (ce : List PyStr),
        (VideoDataset.init md w rz tf ce).len
          = (VideoDataset.init md w rz tf ce).metadata.length := by
  constructor
  · obtain ⟨eps, h⟩ := getitem_state env ds idx
    rw [h]
    simp [VideoDataset.len]
  · intro md w rz tf ce
    simp [VideoDataset.init, VideoDataset.len]

/-- C10: the error list grows by exactly one entry per fetch call that
returns the absence signal and by nothing otherwise (in particular a
successful sample appends nothing), so over any sequence of fetches its
length grows by exactly the number of absence results. -/
theorem C10_error_growth_per_call (env : CvEnv) (ds : VideoDataset) (idx : Nat) :
    ((VideoDataset.getitem env ds idx).2.error_paths.length
        = ds.error_paths.length
          + (if (VideoDataset.getitem env ds idx).1 = .noneResult then 1 else 0))
    ∧ ∀ idxs : List Nat,
        (runFetches env ds idxs).1.error_paths.length
          = ds.error_paths.length + (runFetches env ds idxs).2 :=
  ⟨getitem_error_delta env ds idx, fun idxs => runFetches_len env idxs ds⟩

theorem sampleLoop_dims (env : CvEnv) (v : Video) (w : Nat) (vw vh : Int) :
    ∀ (l : List Nat) (acc F : List ProcFrame),
      (∀ f ∈ acc, f.height = vh ∧ f.width = vw) →
      sampleLoop env v w vw vh l acc = .ok F →
      ∀ f ∈ F, f.height = vh ∧ f.width = vw
  | [], acc, F, hacc, h => by
    simp only [sampleLoop, Except.ok.injEq] at h
    subst h
    exact hacc
  | i :: rest, acc, F, hacc, h => by
    simp only [sampleLoop] at h
    split at h
    · exact absurd h (by simp)
    · split at h
      · split at h
        · exact sampleLoop_dims env v w vw vh rest acc F hacc h
        · split at h
          · exact absurd h (by simp)
          · split at h
            · exact absurd h (by simp)
            · rename_i c2 _
              refine sampleLoop_dims env v w vw vh rest (acc ++ [⟨vh, vw, c2⟩]) F ?_ h
              intro f hf
              rcases List.mem_append.mp hf with hf | hf
              · exact hacc f hf
              · obtain rfl := List.mem_singleton.mp hf
                exact ⟨rfl, rfl⟩
      · exact sampleLoop_dims env v w vw vh rest acc F hacc h

theorem getitem_sample_inv (env : CvEnv) (ds : VideoDataset) (idx : Nat)
    (p : PyStr) (F : List ProcFrame) (lab : PyStr)
    (h : (VideoDataset.getitem env ds idx).1 = .sample p F lab) :
    ds.path_to_all_videos[idx]? = some p
    ∧ ¬ (env.capture p).frame_count = 0
    ∧ sampleLoop env (env.capture p) ds.window
        (pyInt ((env.capture p).width.mul ds.resize))
        (pyInt ((env.capture p).height.mul ds.resize))
        (List.range (min (env.capture p).frame_count ds.max_v_len)) [] = .ok F := by
  unfold VideoDataset.getitem at h
  rcases hp : ds.path_to_all_videos[idx]? with _ | q
  · rw [hp] at h
    exact absurd h (by simp)
  · rw [hp] at h
    replace h : (VideoDataset.getitemFound env ds q).1 = GetItemResult.sample p F lab := h
    by_cases hz : (env.capture q).frame_count = 0
    · rw [getitemFound_zero env ds q hz] at h
      exact absurd h (by simp)
    · rcases hE : sampleLoop env (env.capture q) ds.window
          (pyInt ((env.capture q).width.mul ds.resize))
          (pyInt ((env.capture q).height.mul ds.resize))
          (List.range (min (env.capture q).frame_count ds.max_v_len)) [] with e | F2
      · rw [getitemFound_err env ds q e hz hE] at h
        exact absurd h (by simp)
      · rcases F2 with _ | ⟨f, fs⟩
        · rw [getitemFound_ok_nil env ds q hz hE] at h
          exact absurd h (by simp)
        · rcases hlook : ds.metadata.lookup q with _ | r
          · rw [getitemFound_keyerr env ds q f fs hz hE hlook] at h
            exact absurd h (by simp)
          · rw [getitemFound_sample env ds q f fs r hz hE hlook] at h
            simp only [GetItemResult.sample.injEq] at h
            obtain ⟨rfl, rfl, rfl⟩ := h
            exact ⟨rfl, hz, hE⟩

/-- C5: neither of the two expected failure conditions (zero reported
frames; zero frames kept by the loop) raises across the fetch boundary:
both return the absence signal; any error raised by the decode loop is
not caught and propagates to the caller. -/
theorem C5_recoverable_vs_propagating (env : CvEnv) (ds : VideoDataset) (idx : Nat)
    (p : PyStr)
    (hpath : ds.path_to_all_videos[idx]? = some p) :
    ((env.capture p).frame_count = 0 →
      (VideoDataset.getitem env ds idx).1 = .noneResult)
    ∧ (sampleLoop env (env.capture p) ds.window
        (pyInt ((env.capture p).width.mul ds.resize))
        (pyInt ((env.capture p).height.mul ds.resize))
        (List.range (min (env.capture p).frame_count ds.max_v_len)) [] = .ok [] →
        (VideoDataset.getitem env ds idx).1 = .noneResult)
    ∧ (∀ e, ¬ (env.capture p).frame_count = 0 →
        sampleLoop env (env.capture p) ds.window
          (pyInt ((env.capture p).width.mul ds.resize))
          (pyInt ((env.capture p).height.mul ds.resize))
          (List.range (min (env.capture p).frame_count ds.max_v_len)) [] = .error e →
        (VideoDataset.getitem env ds idx).1 = .raised e) := by
  rw [getitem_eq_found env ds idx p hpath]
  refine ⟨fun hz => ?_, fun hloop => ?_, fun e hz hloop => ?_⟩
  · rw [getitemFound_zero env ds p hz]
  · by_cases hz : (env.capture p).frame_count = 0
    · rw [getitemFound_zero env ds p hz]
    · rw [getitemFound_ok_nil env ds p hz hloop]
  · rw [getitemFound_err env ds p e hz hloop]

theorem C5_recoverable_vs_propagating_witness :
    (VideoDataset.getitem (idEnv video0) (dsOne 1 ⟨1, 2⟩) 0).1 = .noneResult :=
  (C5_recoverable_vs_propagating (idEnv video0) (dsOne 1 ⟨1, 2⟩) 0 "v.mp4".toList
    (by decide)).1 (by decide)

/-- C3 counterexample: with a source height of 3 and a resize factor of
one half, the kept frame's height is `int(3 * 0.5) = 1`, whereas the
claimed `round(3 * 0.5)` is 2. -/
theorem C3_round_counterexample :
    (VideoDataset.getitem (idEnv video3) (dsOne 1 ⟨1, 2⟩) 0).1
      = .sample "v.mp4".toList [⟨1, 1, 0⟩] "REAL".toList
    ∧ (1 : Int) ≠ round (video3.height.toRat * (dsOne 1 ⟨1, 2⟩).resize.toRat) := by
  constructor
  · decide
  · norm_num [video3, dsOne, PyFloat.toRat, round_eq]

/-- C3 (amended): each kept frame of a successfully sampled video has
height `int(source_height * resize)` and width `int(source_width *
resize)` — truncation toward zero, not rounding — and these target
dimensions are common to all frames of that one video. -/
theorem C3_resize_truncates (env : CvEnv) (ds : VideoDataset) (idx : Nat)
    (p : PyStr) (F : List ProcFrame) (lab : PyStr)
    (hres : (VideoDataset.getitem env ds idx).1 = .sample p F lab) :
    ∀ f ∈ F, f.height = pyInt ((env.capture p).height.mul ds.resize)
      ∧ f.width = pyInt ((env.capture p).width.mul ds.resize) := by
  obtain ⟨hp, hz, hloop⟩ := getitem_sample_inv env ds idx p F lab hres
  exact sampleLoop_dims env (env.capture p) ds.window _ _ _ [] F (by simp) hloop

theorem C3_resize_truncates_witness :
    (ProcFrame.mk 1 1 0).height
        = pyInt (((idEnv video3).capture "v.mp4".toList).height.mul (dsOne 1 ⟨1, 2⟩).resize)
    ∧ (ProcFrame.mk 1 1 0).width
        = pyInt (((idEnv video3).capture "v.mp4".toList).width.mul (dsOne 1 ⟨1, 2⟩).resize) :=
  C3_resize_truncates (idEnv video3) (dsOne 1 ⟨1, 2⟩) 0 "v.mp4".toList
    [⟨1, 1, 0⟩] "REAL".toList (by decide) ⟨1, 1, 0⟩ (by decide)

theorem CustomBatch.init_congr {α β γ : Type} (d1 d2 : List (Option (α × β × γ)))
    (h : d1.filterMap id = d2.filterMap id) :
    CustomBatch.init d1 = CustomBatch.init d2 := by
  simp only [CustomBatch.init, h]

/-- C8: whenever the input batch holds at least one success, the batch
assembler returns three equal-length columns listing the successes'
paths, frame stacks and labels in their original relative order, and the
result depends only on the successes: inserting or removing absence
signals anywhere leaves the columns unchanged. -/
theorem C8_collate_order_invariant {α β γ : Type}
    (data data2 : List (Option (α × β × γ)))
    (hsucc : ∃ x, some x ∈ data)
    (hsame : data.filterMap id = data2.filterMap id) :
    ∃ b : CustomBatch α β γ,
      CustomBatch.init data = .ok b
      ∧ CustomBatch.init data2 = .ok b
      ∧ b.video_path.length = b.frame.length
      ∧ b.label.length = b.frame.length
      ∧ b.video_path = (data.filterMap id).map (fun x => x.1)
      ∧ b.frame = (data.filterMap id).map (fun x => x.2.1)
      ∧ b.label = (data.filterMap id).map (fun x => x.2.2) := by
  obtain ⟨x, hx⟩ := hsucc
  have hne : (data.filterMap id).isEmpty = false := by
    rw [List.isEmpty_eq_false]
    intro h0
    have hmem : x ∈ data.filterMap id := List.mem_filterMap.mpr ⟨some x, hx, rfl⟩
    rw [h0] at hmem
    exact absurd hmem (List.not_mem_nil x)
  have h1 : CustomBatch.init data
      = .ok ⟨(data.filterMap id).map (fun x => x.1),
             (data.filterMap id).map (fun x => x.2.1),
             (data.filterMap id).map (fun x => x.2.2)⟩ := by
    simp only [CustomBatch.init, hne]
    rfl
  refine ⟨_, h1, ?_, by simp, by simp, rfl, rfl, rfl⟩
  rw [← CustomBatch.init_congr data data2 hsame]
  exact h1

theorem C8_collate_order_invariant_witness :
    ∃ b : CustomBatch Nat Nat Nat,
      CustomBatch.init ([some (1, 2, 3), none] : List (Option (Nat × Nat × Nat))) = .ok b
      ∧ CustomBatch.init ([none, some (1, 2, 3), none] : List (Option (Nat × Nat × Nat))) = .ok b
      ∧ b.video_path.length = b.frame.length
      ∧ b.label.length = b.frame.length
      ∧ b.video_path = (([some (1, 2, 3), none] : List (Option (Nat × Nat × Nat))).filterMap id).map (fun x => x.1)
      ∧ b.frame = (([some (1, 2, 3), none] : List (Option (Nat × Nat × Nat))).filterMap id).map (fun x => x.2.1)
      ∧ b.label = (([some (1, 2, 3), none] : List (Option (Nat × Nat × Nat))).filterMap id).map (fun x => x.2.2) :=
  C8_collate_order_invariant _ _ ⟨(1, 2, 3), by decide⟩ (by decide)

theorem sampleLoop_closed (env : CvEnv) (v : Video) (w : Nat) (vw vh : Int)
    (cc rs : RawFrame → RawFrame)
    (hw : w ≠ 0)
    (hcvt : ∀ x, env.cvtColor x = .ok (cc x))
    (hrs : ∀ x, env.resizeContent x = .ok (rs x)) :
    ∀ (l : List Nat) (acc : List ProcFrame),
      sampleLoop env v w vw vh l acc
        = .ok (acc ++ (l.filter (fun i => i % w == 0)).filterMap
            (fun i => (v.retrieve i).map (fun raw => ProcFrame.mk vh vw (rs (cc raw)))))
  | [], acc => by simp [sampleLoop]
  | i :: rest, acc => by
    have IH := sampleLoop_closed env v w vw vh cc rs hw hcvt hrs rest
    by_cases hi : i % w = 0
    · rcases hr : v.retrieve i with _ | raw
      · simp [sampleLoop, if_neg hw, hi, hr, IH, List.filter_cons, List.filterMap_cons]
      · simp [sampleLoop, if_neg hw, hi, hr, hcvt, hrs, IH, List.filter_cons,
          List.filterMap_cons]
    · simp [sampleLoop, if_neg hw, hi, IH, List.filter_cons]

theorem count_sampled (w : Nat) (hw : w ≠ 0) :
    ∀ m : Nat, ((List.range m).filter (fun i => i % w == 0)).length = (m + w - 1) / w := by
  have hwpos : 0 < w := Nat.pos_of_ne_zero hw
  intro m
  induction m with
  | zero => simp [Nat.div_eq_of_lt (by omega : w - 1 < w)]
  | succ m ih =>
    rw [List.range_succ, List.filter_append, List.length_append, ih]
    by_cases hm : m % w = 0
    · rw [List.filter_cons, if_pos (by simp [hm]), List.filter_nil]
      rcases m with _ | k
      · simp [Nat.div_eq_of_lt (by omega : w - 1 < w),
          (by omega : 0 + 1 + w - 1 = w), Nat.div_self hwpos]
      · have e1 : k + 1 + w - 1 = k + w := by omega
        have e2 : k + 1 + 1 + w - 1 = (k + 1) + w := by omega
        rw [e1, e2, Nat.add_div_right k hwpos, Nat.add_div_right (k + 1) hwpos,
          Nat.succ_div, if_pos (Nat.dvd_iff_mod_eq_zero.mpr hm)]
        simp
    · rw [List.filter_cons, if_neg (by simp [hm]), List.filter_nil]
      rcases m with _ | k
      · exact absurd (Nat.zero_mod w) hm
      · have e1 : k + 1 + w - 1 = k + w := by omega
        have e2 : k + 1 + 1 + w - 1 = (k + 1) + w := by omega
        rw [e1, e2, Nat.add_div_right k hwpos, Nat.add_div_right (k + 1) hwpos,
          Nat.succ_div, if_neg (fun hd => hm (Nat.dvd_iff_mod_eq_zero.mp hd))]
        simp

theorem filterMap_option_length {α β γ : Type} (h : α → Option β) (g : β → γ) :
    ∀ l : List α,
      (l.filterMap (fun i => (h i).map g)).length
        = (l.filter (fun i => (h i).isSome)).length
  | [] => rfl
  | i :: rest => by
    rcases hr : h i with _ | b <;>
      simp [List.filterMap_cons, List.filter_cons, hr,
        filterMap_option_length h g rest]

theorem filter_length_split {α : Type} (P Q : α → Bool) :
    ∀ l : List α,
      (l.filter P).length
        = (l.filter (fun i => P i && Q i)).length
          + (l.filter (fun i => P i && !(Q i))).length
  | [] => rfl
  | a :: rest => by
    have IH := filter_length_split P Q rest
    cases hP : P a <;> cases hQ : Q a <;>
      simp [List.filter_cons, hP, hQ, IH] <;> omega

theorem keptFrames_length (v : Video) (w : Nat) (vw vh : Int)
    (cc rs : RawFrame → RawFrame) (m : Nat) (hw : w ≠ 0) :
    (keptFrames v w vw vh cc rs m).length = (m + w - 1) / w - failedCount v w m := by
  have h1 : (keptFrames v w vw vh cc rs m).length
      = (((List.range m).filter (fun i => i % w == 0)).filter
          (fun i => (v.retrieve i).isSome)).length := by
    unfold keptFrames
    exact filterMap_option_length v.retrieve _ _
  rw [List.filter_filter] at h1
  have h2 := filter_length_split (fun i => i % w == 0)
    (fun i => (v.retrieve i).isSome) (List.range m)
  have h3 : ((List.range m).filter
        (fun a => (v.retrieve a).isSome && (a % w == 0))).length
      = ((List.range m).filter
          (fun i => (i % w == 0) && (v.retrieve i).isSome)).length := by
    rw [List.filter_congr (fun a _ => Bool.and_comm ((v.retrieve a).isSome) (a % w == 0))]
  have h4 : ((List.range m).filter
        (fun i => (i % w == 0) && !((v.retrieve i).isSome))).length
      = failedCount v w m := by
    unfold failedCount
    rw [List.filter_congr]
    intro a _
    cases v.retrieve a <;> rfl
  have h5 := count_sampled w hw m
  omega

/-- C4: with a decodable environment, the sampler keeps exactly the frames
at positions `i` below `min(total_frames, 1440)` with `i % window = 0`
whose retrieve succeeded (in order), and the number of kept frames is
`ceil(min(total_frames, 1440) / window)` minus the number of sampled
positions whose decode failed. -/
theorem C4_stride_and_count (env : CvEnv) (ds : VideoDataset) (idx : Nat)
    (p : PyStr) (r : MetaRecord) (cc rs : RawFrame → RawFrame)
    (hpath : ds.path_to_all_videos[idx]? = some p)
    (hw : ds.window ≠ 0)
    (hmax : ds.max_v_len = 1440)
    (hcvt : ∀ x, env.cvtColor x = .ok (cc x))
    (hrsz : ∀ x, env.resizeContent x = .ok (rs x))
    (hpos : 0 < (env.capture p).frame_count)
    (hlook : ds.metadata.lookup p = some r)
    (hsucc : ∃ i, i < min (env.capture p).frame_count 1440 ∧ i % ds.window = 0
      ∧ ((env.capture p).retrieve i).isSome) :
    (VideoDataset.getitem env ds idx).1
      = .sample p
          (keptFrames (env.capture p) ds.window
            (pyInt ((env.capture p).width.mul ds.resize))
            (pyInt ((env.capture p).height.mul ds.resize)) cc rs
            (min (env.capture p).frame_count 1440)) r.label
    ∧ (keptFrames (env.capture p) ds.window
          (pyInt ((env.capture p).width.mul ds.resize))
          (pyInt ((env.capture p).height.mul ds.resize)) cc rs
          (min (env.capture p).frame_count 1440)).length
        = (min (env.capture p).frame_count 1440 + ds.window - 1) / ds.window
          - failedCount (env.capture p) ds.window
              (min (env.capture p).frame_count 1440) := by
  rw [← hmax] at hsucc ⊢
  have hkept : sampleLoop env (env.capture p) ds.window
      (pyInt ((env.capture p).width.mul ds.resize))
      (pyInt ((env.capture p).height.mul ds.resize))
      (List.range (min (env.capture p).frame_count ds.max_v_len)) []
      = .ok (keptFrames (env.capture p) ds.window
          (pyInt ((env.capture p).width.mul ds.resize))
          (pyInt ((env.capture p).height.mul ds.resize)) cc rs
          (min (env.capture p).frame_count ds.max_v_len)) := by
    have hclosed := sampleLoop_closed env (env.capture p) ds.window
      (pyInt ((env.capture p).width.mul ds.resize))
      (pyInt ((env.capture p).height.mul ds.resize))
      cc rs hw hcvt hrsz (List.range (min (env.capture p).frame_count ds.max_v_len)) []
    rw [List.nil_append] at hclosed
    exact hclosed
  obtain ⟨i, hi, hmod, hsome⟩ := hsucc
  obtain ⟨raw, hraw⟩ := Option.isSome_iff_exists.mp hsome
  have hmem : ProcFrame.mk (pyInt ((env.capture p).height.mul ds.resize))
      (pyInt ((env.capture p).width.mul ds.resize)) (rs (cc raw))
      ∈ keptFrames (env.capture p) ds.window
          (pyInt ((env.capture p).width.mul ds.resize))
          (pyInt ((env.capture p).height.mul ds.resize)) cc rs
          (min (env.capture p).frame_count ds.max_v_len) := by
    unfold keptFrames
    refine List.mem_filterMap.mpr ⟨i, ?_, ?_⟩
    · exact List.mem_filter.mpr ⟨List.mem_range.mpr hi, by simp [hmod]⟩
    · rw [hraw]
      rfl
  constructor
  · rcases hK : keptFrames (env.capture p) ds.window
        (pyInt ((env.capture p).width.mul ds.resize))
        (pyInt ((env.capture p).height.mul ds.resize)) cc rs
        (min (env.capture p).frame_count ds.max_v_len) with _ | ⟨f, fs⟩
    · rw [hK] at hmem
      exact absurd hmem (List.not_mem_nil _)
    · rw [getitem_eq_found env ds idx p hpath,
        getitemFound_sample env ds p f fs r (by omega) (hK ▸ hkept) hlook]
  · exact keptFrames_length (env.capture p) ds.window _ _ cc rs _ hw

theorem C4_stride_and_count_witness :
    (VideoDataset.getitem (idEnv video5) (dsOne 2 ⟨1, 2⟩) 0).1
      = .sample "v.mp4".toList
          (keptFrames video5 2 3 2 (fun x => x) (fun x => x) 5) "REAL".toList
    ∧ (keptFrames video5 2 3 2 (fun x => x) (fun x => x) 5).length
        = (5 + 2 - 1) / 2 - failedCount video5 2 5 :=
  C4_stride_and_count (idEnv video5) (dsOne 2 ⟨1, 2⟩) 0 "v.mp4".toList
    ⟨"REAL".toList⟩ (fun x => x) (fun x => x)
    (by decide) (by decide) (by decide) (fun x => rfl) (fun x => rfl)
    (by decide) (by decide) ⟨0, by decide, by decide, by decide⟩

theorem pruneScan_mem (done : List PyStr) (hdone : done.Pairwise (fun a b => a ≤ b)) :
    ∀ (ps del : List PyStr),
      List.Pairwise (fun a b => stem a < stem b) ps →
      (∀ x ∈ ps, stem x ∈ done → stem x ∈ done.drop del.length) →
      ∀ q, q ∈ pruneScan ps done del ↔ q ∈ del ∨ (q ∈ ps ∧ stem q ∈ done)
  | [], del, _, _, q => by simp [pruneScan]
  | p :: ps, del, hmono, hinv, q => by
    have hhead := (List.pairwise_cons.mp hmono).1
    have hmono2 := (List.pairwise_cons.mp hmono).2
    by_cases hc : stem p ∈ done.drop del.length
    · have hpdone : stem p ∈ done := List.mem_of_mem_drop hc
      have hinv2 : ∀ x ∈ ps, stem x ∈ done → stem x ∈ done.drop (del ++ [p]).length := by
        intro x hx hxdone
        have hx_drop := hinv x (List.mem_cons_of_mem _ hx) hxdone
        rcases hd : done.drop del.length with _ | ⟨h0, t⟩
        · rw [hd] at hc
          exact absurd hc (List.not_mem_nil _)
        · rw [hd] at hx_drop hc
          have hdrop_pair : (done.drop del.length).Pairwise (fun a b => a ≤ b) :=
            hdone.sublist (List.drop_sublist _ _)
          rw [hd] at hdrop_pair
          have h0le : h0 ≤ stem p := by
            rcases List.mem_cons.mp hc with hEq | hMem
            · exact le_of_eq hEq.symm
            · exact (List.pairwise_cons.mp hdrop_pair).1 _ hMem
          have hlt : h0 < stem x := lt_of_le_of_lt h0le (hhead x hx)
          have hx_t : stem x ∈ t := by
            rcases List.mem_cons.mp hx_drop with hEq | hMem
            · exact absurd hEq.symm (ne_of_lt hlt)
            · exact hMem
          have hdd : done.drop (del ++ [p]).length = t := by
            have e : (del ++ [p]).length = del.length + 1 := by simp
            rw [e, ← List.drop_drop, hd]
            rfl
          rw [hdd]
          exact hx_t
      have IH := pruneScan_mem done hdone ps (del ++ [p]) hmono2 hinv2 q
      rw [pruneScan, if_pos hc, IH]
      simp only [List.mem_append, List.mem_cons]
      constructor
      · rintro ((hq | (rfl | h0)) | ⟨hq, hs⟩)
        · exact Or.inl hq
        · exact Or.inr ⟨Or.inl rfl, hpdone⟩
        · exact absurd h0 (List.not_mem_nil q)
        · exact Or.inr ⟨Or.inr hq, hs⟩
      · rintro (hq | ⟨(rfl | hq), hs⟩)
        · exact Or.inl (Or.inl hq)
        · exact Or.inl (Or.inr (Or.inl rfl))
        · exact Or.inr ⟨hq, hs⟩
    · have hpnot : stem p ∉ done := fun hd => hc (hinv p (List.mem_cons_self p ps) hd)
      have hinv2 : ∀ x ∈ ps, stem x ∈ done → stem x ∈ done.drop del.length :=
        fun x hx => hinv x (List.mem_cons_of_mem _ hx)
      have IH := pruneScan_mem done hdone ps del hmono2 hinv2 q
      rw [pruneScan, if_neg hc, IH]
      simp only [List.mem_cons]
      constructor
      · rintro (hq | ⟨hq, hs⟩)
        · exact Or.inl hq
        · exact Or.inr ⟨Or.inr hq, hs⟩
      · rintro (hq | ⟨(rfl | hq), hs⟩)
        · exact Or.inl hq
        · exact absurd hs hpnot
        · exact Or.inr ⟨hq, hs⟩

/-- C1 (amended): provided the extension-stripped basenames of the
metadata keys, taken in the scan order (keys sorted by basename), are
strictly increasing — in particular pairwise distinct — a metadata key is
removed during index construction if and only if its extension-stripped
basename appears among the extension-stripped basenames of the
completed-output directory entries.  Without that proviso the merge-scan
can fail to remove a key whose stem is among the done stems. -/
theorem C1_prune_iff (md : List (PyStr × MetaRecord)) (w : Nat) (rz : PyFloat)
    (tf : Option Nat) (ce : List PyStr)
    (hmono : (sortedMetaKeys (md.map Prod.fst)).Pairwise (fun a b => stem a < stem b))
    (p : PyStr) (hp : p ∈ md.map Prod.fst) :
    (p ∉ (VideoDataset.init md w rz tf ce).metadata.map Prod.fst
      ↔ stem p ∈ ce.map stem) := by
  have hdone : (doneSorted ce).Pairwise (fun a b : PyStr => a ≤ b) :=
    List.sorted_insertionSort _ (ce.map stem)
  have hscan := pruneScan_mem (doneSorted ce) hdone
    (sortedMetaKeys (md.map Prod.fst)) [] hmono (by
      intro x hx h
      simpa using h) p
  have hsort_mem : p ∈ sortedMetaKeys (md.map Prod.fst) ↔ p ∈ md.map Prod.fst :=
    (List.perm_insertionSort _ _).mem_iff
  have hdone_mem : stem p ∈ doneSorted ce ↔ stem p ∈ ce.map stem :=
    (List.perm_insertionSort _ _).mem_iff
  have hdel_iff : p ∈ pruneDelete (md.map Prod.fst) ce ↔ stem p ∈ ce.map stem := by
    unfold pruneDelete
    rw [hscan]
    simp [hsort_mem, hp, hdone_mem]
  have hinit : p ∈ (VideoDataset.init md w rz tf ce).metadata.map Prod.fst
      ↔ (p ∈ md.map Prod.fst ∧ p ∉ pruneDelete (md.map Prod.fst) ce) := by
    simp only [VideoDataset.init, List.mem_map, List.mem_filter, decide_eq_true_eq]
    constructor
    · rintro ⟨kv, ⟨hkv, hdel⟩, rfl⟩
      exact ⟨⟨kv, hkv, rfl⟩, hdel⟩
    · rintro ⟨⟨kv, hkv, rfl⟩, hdel⟩
      exact ⟨kv, ⟨hkv, hdel⟩, rfl⟩
  rw [hinit]
  simp [hp, hdel_iff]

theorem C1_prune_iff_witness :
    ("a.mp4".toList ∉ (VideoDataset.init
        [("a.mp4".toList, ⟨"REAL".toList⟩), ("b.mp4".toList, ⟨"FAKE".toList⟩)]
        1 ⟨1, 2⟩ none ["a.npy".toList]).metadata.map Prod.fst)
      ↔ stem "a.mp4".toList ∈ (["a.npy".toList].map stem) :=
  C1_prune_iff _ 1 ⟨1, 2⟩ none _ (by decide) "a.mp4".toList (by decide)

/-- C1 counterexample: with metadata keys `a.mp4` and `b/a.mp4` (equal
extension-stripped basenames) and a single completed entry `a.npy`, the
claimed set-membership equivalence fails for the key `b/a.mp4`: its stem
is among the done stems, yet the key is not removed, because the scan
already consumed the only matching done entry for the first key. -/
theorem C1_prune_not_set_membership :
    ¬ (("b/a.mp4".toList ∉ (VideoDataset.init
          [("a.mp4".toList, ⟨"REAL".toList⟩), ("b/a.mp4".toList, ⟨"FAKE".toList⟩)]
          1 ⟨1, 2⟩ none ["a.npy".toList]).metadata.map Prod.fst)
        ↔ stem "b/a.mp4".toList ∈ (["a.npy".toList].map stem)) := by decide
